import Mathlib

/-!
Verification of the vehicle/license-plate recognition pipeline
(`python_yolo.py`, `python_yolo_fast_plate.py`).

The Python code is shallowly embedded: strings become `String`, pixel
coordinates and detector confidences become `ℚ` (the comparisons in the
source are exact at the modelled inputs), contour points become `Int`
pairs (OpenCV approximated contours carry integer pixel coordinates),
and the OpenCV image operations that the control flow merely passes
through (Canny, findContours, warpPerspective pixel content) are
abstracted as parameters.
-/

/-! ## String normalization and plate validation
Embeds `SimpleOCRWorker._validate_and_format_plate_by_rules`,
the confusable-character map of `_read_license_plate_trocr`, and
`FastPlateOCRWorker._validate_and_format_plate` /
`_validate_and_format_plate_by_rules`. -/

/-- ASCII alphanumeric test, embedding the regex character class
`[a-zA-Z0-9]` used by the 7-digit format-hint patterns. -/
def isAlnumAscii (c : Char) : Bool :=
  (decide ('a' ≤ c) && decide (c ≤ 'z')) ||
  (decide ('A' ≤ c) && decide (c ≤ 'Z')) ||
  (decide ('0' ≤ c) && decide (c ≤ '9'))

/-- The separator character class of the format-hint patterns.  In the
source the pattern is the Python raw string `r"...[-\\s]?..."`, so the
class denotes the three literal characters hyphen, backslash and the
letter s — not whitespace. -/
def isSepClass (c : Char) : Bool :=
  c == '-' || c == '\\' || c == 's'

/-- Full-match semantics of the regex
`^[a-zA-Z0-9]{g1}[-\\s]?[a-zA-Z0-9]{g2}[-\\s]?[a-zA-Z0-9]{g3}$`:
a string matches iff one of the four separator-presence combinations
fits exactly. -/
def matchesHint (g1 g2 g3 : Nat) (cs : List Char) : Bool :=
  (cs.length == g1 + g2 + g3 && cs.all isAlnumAscii) ||
  (cs.length == g1 + g2 + g3 + 1 && (cs.take g1).all isAlnumAscii &&
    isSepClass (cs.getD g1 ' ') && (cs.drop (g1 + 1)).all isAlnumAscii) ||
  (cs.length == g1 + g2 + g3 + 1 && (cs.take (g1 + g2)).all isAlnumAscii &&
    isSepClass (cs.getD (g1 + g2) ' ') && (cs.drop (g1 + g2 + 1)).all isAlnumAscii) ||
  (cs.length == g1 + g2 + g3 + 2 && (cs.take g1).all isAlnumAscii &&
    isSepClass (cs.getD g1 ' ') && ((cs.drop (g1 + 1)).take g2).all isAlnumAscii &&
    isSepClass (cs.getD (g1 + 1 + g2) ' ') && (cs.drop (g1 + g2 + 2)).all isAlnumAscii)

/-- `NN-NNN-NN` structural hint: `re.fullmatch(nn_nnn_nn_raw_re, raw)`. -/
def matchesNNNNNNN (raw : String) : Bool := matchesHint 2 3 2 raw.data

/-- `N-NNNN-NN` structural hint: `re.fullmatch(n_nnnn_nn_raw_re, raw)`. -/
def matchesN4NN (raw : String) : Bool := matchesHint 1 4 2 raw.data

/-- `SimpleOCRWorker._validate_and_format_plate_by_rules` from
`python_yolo.py` (branches: 7 digits with regex hints, 8 digits, else
`None`). -/
def pyValidateFormat (raw_ocr_text numeric_plate_text : String) : Option String :=
  if numeric_plate_text.length = 7 then
    let format1 := numeric_plate_text.take 2 ++ "-" ++
      (numeric_plate_text.drop 2).take 3 ++ "-" ++ numeric_plate_text.drop 5
    let format2 := numeric_plate_text.take 1 ++ "-" ++
      (numeric_plate_text.drop 1).take 4 ++ "-" ++ numeric_plate_text.drop 5
    let m1 := matchesNNNNNNN raw_ocr_text
    let m2 := matchesN4NN raw_ocr_text
    if m1 && !m2 then some format1
    else if m2 && !m1 then some format2
    else some (format1 ++ " or " ++ format2)
  else if numeric_plate_text.length = 8 then
    some (numeric_plate_text.take 3 ++ "-" ++
      (numeric_plate_text.drop 3).take 2 ++ "-" ++ numeric_plate_text.drop 5)
  else
    none

/-- The fixed visually-confusable character map applied to the
upper-cased raw OCR text (`char_map` in `_read_license_plate_trocr`). -/
def mapChar (c : Char) : Char :=
  let u := c.toUpper
  if u = 'O' then '0' else if u = 'I' then '1' else if u = 'L' then '1'
  else if u = 'S' then '5' else if u = 'B' then '8' else if u = 'Z' then '2'
  else if u = 'G' then '6' else if u = 'Q' then '0' else if u = 'A' then '4'
  else if u = 'E' then '3' else u

/-- `corrected_raw_text` of `_read_license_plate_trocr`. -/
def correctedText (s : String) : String := String.mk (s.data.map mapChar)

/-- `re.sub(r'[^0-9]', '', s)`: keep only decimal digits. -/
def onlyDigits (s : String) : String := String.mk (s.data.filter Char.isDigit)

/-- The normalization-plus-validation pipeline of
`_read_license_plate_trocr`: confusable map, strip to digits, validate. -/
def readPipeline (raw_text_from_ocr : String) : Option String :=
  pyValidateFormat (correctedText raw_text_from_ocr)
    (onlyDigits (correctedText raw_text_from_ocr))

/-- `raw_text.replace('_', '')` in `FastPlateOCRWorker`. -/
def stripUnderscores (s : String) : String :=
  String.mk (s.data.filter (fun c => c ≠ '_'))

/-- `FastPlateOCRWorker._validate_and_format_plate_by_rules` from
`python_yolo_fast_plate.py` (7, 8 and 9 digit branches). -/
def fpValidateByRules (raw_ocr_text numeric_plate_text : String) : Option String :=
  if numeric_plate_text.length = 7 then
    some (numeric_plate_text.take 2 ++ "-" ++
      (numeric_plate_text.drop 2).take 3 ++ "-" ++ numeric_plate_text.drop 5)
  else if numeric_plate_text.length = 8 then
    some (numeric_plate_text.take 3 ++ "-" ++
      (numeric_plate_text.drop 3).take 2 ++ "-" ++ numeric_plate_text.drop 5)
  else if numeric_plate_text.length = 9 then
    let option1 := numeric_plate_text.drop 1
    let option2 := numeric_plate_text.take (numeric_plate_text.length - 1)
    let fo1 := option1.take 3 ++ "-" ++ (option1.drop 3).take 2 ++ "-" ++ option1.drop 5
    let fo2 := option2.take 3 ++ "-" ++ (option2.drop 3).take 2 ++ "-" ++ option2.drop 5
    some (fo1 ++ " or " ++ fo2)
  else
    none

/-- Python `str.strip()`: drop whitespace from both ends. -/
def pyStrip (s : String) : String :=
  String.mk (((s.data.dropWhile Char.isWhitespace).reverse.dropWhile
    Char.isWhitespace).reverse)

/-- `FastPlateOCRWorker._validate_and_format_plate`: strip padding
underscores and surrounding whitespace, keep digits, accept only
lengths 7 to 9, then apply the by-rules formatting. -/
def fpValidate (raw_text : String) : Option String :=
  if raw_text = "" then none
  else
    let clean_text := pyStrip (stripUnderscores raw_text)
    let numeric_only := onlyDigits clean_text
    if numeric_only.length < 7 ∨ numeric_only.length > 9 then none
    else fpValidateByRules clean_text numeric_only

/-- Any string built around an explicit hyphen contains a hyphen. -/
lemma dash_mem_append (a b : String) : '-' ∈ (a ++ "-" ++ b).data := by
  rw [String.data_append, String.data_append]
  refine List.mem_append.mpr (Or.inl (List.mem_append.mpr (Or.inr ?_)))
  simp

/-- A validated output of the TrOCR/EasyOCR validator always contains a
hyphen (every branch builds the result around explicit hyphens). -/
lemma pyValidateFormat_dash {raw numeric t : String}
    (h : pyValidateFormat raw numeric = some t) : '-' ∈ t.data := by
  unfold pyValidateFormat at h
  dsimp only at h
  split at h
  · split at h
    · cases h
      exact dash_mem_append _ _
    · split at h
      · cases h
        exact dash_mem_append _ _
      · rw [Option.some_inj] at h
        subst h
        rw [String.data_append, String.data_append]
        exact List.mem_append.mpr (Or.inl (List.mem_append.mpr
          (Or.inl (dash_mem_append _ _))))
  · split at h
    · injection h with h
      subst h
      exact dash_mem_append _ _
    · exact Option.noConfusion h

/-- Claim C2 counterexample: the TrOCR/EasyOCR validator
(`_validate_and_format_plate_by_rules` in `python_yolo.py`) rejects the
9-digit normalized text "123456789", although the claim says every
length in {7, 8, 9} yields a formatted string in both validators. -/
theorem C2_counterexample_py_rejects_nine :
    pyValidateFormat "123456789" "123456789" = none ∧
    ("123456789" : String).length = 9 := by
  constructor
  · rfl
  · rfl

/-- Claim C2 (amended): the TrOCR/EasyOCR validator returns `None`
exactly when the digit-only normalized text has length outside {7, 8}
(it also rejects length 9), while the fast-plate validator returns
`None` exactly when the digit-only normalized text (after stripping
underscores and whitespace) has length outside {7, 8, 9}. -/
theorem C2_validator_length_gate :
    (∀ raw numeric : String,
      (pyValidateFormat raw numeric = none ↔
        ¬(numeric.length = 7 ∨ numeric.length = 8))) ∧
    (∀ raw : String,
      (fpValidate raw = none ↔
        ¬(7 ≤ (onlyDigits (pyStrip (stripUnderscores raw))).length ∧
          (onlyDigits (pyStrip (stripUnderscores raw))).length ≤ 9))) := by
  constructor
  · intro raw numeric
    unfold pyValidateFormat
    dsimp only
    split
    · rename_i h7
      constructor
      · intro h
        split at h
        · cases h
        · split at h
          · cases h
          · cases h
      · intro h
        exact absurd (Or.inl h7) h
    · split
      · rename_i h7 h8
        simp [h8]
      · rename_i h7 h8
        simp [h7, h8]
  · intro raw
    unfold fpValidate
    dsimp only
    split
    · rename_i hraw
      subst hraw
      constructor
      · intro _
        intro hc
        have h0 : (onlyDigits (pyStrip (stripUnderscores ""))).length = 0 := by decide
        omega
      · intro _
        rfl
    · rename_i hraw
      split
      · rename_i hlen
        constructor
        · intro _
          omega
        · intro _
          rfl
      · rename_i hlen
        push_neg at hlen
        have h79 : (onlyDigits (pyStrip (stripUnderscores raw))).length = 7 ∨
            (onlyDigits (pyStrip (stripUnderscores raw))).length = 8 ∨
            (onlyDigits (pyStrip (stripUnderscores raw))).length = 9 := by omega
        constructor
        · intro h
          unfold fpValidateByRules at h
          rcases h79 with h9 | h9 | h9 <;> rw [h9] at h <;> simp at h
        · intro hc
          exact absurd ⟨by omega, by omega⟩ hc

/-- Claim C3: with a whitespace-separated raw text the code does not
pick the `NN-NNN-NN` layout, because the separator class in the source
regex (`[-\\s]` inside a Python raw string) matches hyphen, backslash
or the letter s — not whitespace.  Evaluating the embedded validator at
the failing input: raw "12 345 67" with numeric "1234567" yields both
candidates joined by "or" instead of the single claimed "12-345-67". -/
theorem C3_whitespace_hint_ignored :
    pyValidateFormat "12 345 67" "1234567" = some "12-345-67 or 1-2345-67" ∧
    pyValidateFormat "12-345-67" "1234567" = some "12-345-67" ∧
    matchesNNNNNNN "12 345 67" = false ∧ matchesN4NN "12 345 67" = false := by
  refine ⟨rfl, rfl, rfl, rfl⟩

/-- Claim C4: every 8-digit normalized text is formatted `NNN-NN-NNN`
by both validators ("12345678" yields "123-45-678"), and every 9-digit
text makes the fast-plate by-rules validator return the drop-first and
drop-last 8-digit candidates, in that order, each formatted
`NNN-NN-NNN` and joined by "or" ("123456789" yields
"234-56-789 or 123-45-678"). -/
theorem C4_eight_and_nine_digit_formats :
    (∀ raw numeric : String, numeric.length = 8 →
      pyValidateFormat raw numeric = some (numeric.take 3 ++ "-" ++
        (numeric.drop 3).take 2 ++ "-" ++ numeric.drop 5) ∧
      fpValidateByRules raw numeric = some (numeric.take 3 ++ "-" ++
        (numeric.drop 3).take 2 ++ "-" ++ numeric.drop 5)) ∧
    (∀ raw numeric : String, numeric.length = 9 →
      fpValidateByRules raw numeric = some
        ((numeric.drop 1).take 3 ++ "-" ++ ((numeric.drop 1).drop 3).take 2 ++
          "-" ++ (numeric.drop 1).drop 5 ++ " or " ++
         ((numeric.take 8).take 3 ++ "-" ++ ((numeric.take 8).drop 3).take 2 ++
          "-" ++ (numeric.take 8).drop 5))) ∧
    pyValidateFormat "12345678" "12345678" = some "123-45-678" ∧
    fpValidateByRules "123456789" "123456789" = some "234-56-789 or 123-45-678" := by
  refine ⟨?_, ?_, rfl, rfl⟩
  · intro raw numeric h
    constructor
    · unfold pyValidateFormat
      simp [h]
    · unfold fpValidateByRules
      simp [h]
  · intro raw numeric h
    unfold fpValidateByRules
    dsimp only
    rw [h]
    norm_num

/-- Witness for C4 at the concrete inputs of the claim. -/
theorem C4_eight_and_nine_digit_formats_witness :
    fpValidateByRules "12345678" "12345678" = some ("12345678".take 3 ++ "-" ++
      ("12345678".drop 3).take 2 ++ "-" ++ "12345678".drop 5) ∧
    fpValidateByRules "123456789" "123456789" = some
      (("123456789".drop 1).take 3 ++ "-" ++ (("123456789".drop 1).drop 3).take 2 ++
        "-" ++ ("123456789".drop 1).drop 5 ++ " or " ++
       (("123456789".take 8).take 3 ++ "-" ++ (("123456789".take 8).drop 3).take 2 ++
        "-" ++ ("123456789".take 8).drop 5)) :=
  ⟨(C4_eight_and_nine_digit_formats.1 "12345678" "12345678" (by decide)).2,
   C4_eight_and_nine_digit_formats.2.1 "123456789" "123456789" (by decide)⟩

/-- Claim C7: the normalization (upper-case, confusable map, strip to
digits) followed by validate-and-format is a total function (the
embedding never fails), and it returns `None` on the empty string, on
pure punctuation, and on a length-50 garbage string. -/
theorem C7_normalization_never_throws :
    (∀ s : String, readPipeline s = none ∨ ∃ t, readPipeline s = some t) ∧
    readPipeline "" = none ∧
    readPipeline "!?.,;:" = none ∧
    readPipeline "abcdefghij!@#$%^&*()abcdefghij!@#$%^&*()abcdefghij" = none ∧
    ("abcdefghij!@#$%^&*()abcdefghij!@#$%^&*()abcdefghij" : String).length = 50 := by
  refine ⟨?_, rfl, rfl, rfl, rfl⟩
  intro s
  cases h : readPipeline s with
  | none => exact Or.inl rfl
  | some t => exact Or.inr ⟨t, rfl⟩

/-! ## Four-point ordering (`SimpleOCRWorker._order_points`, also inlined
in `FastPlateOCRWorker._auto_correct_plate_perspective_and_enhance`).
Contour points carry integer pixel coordinates.  `np.argmin`/`np.argmax`
return the first index achieving the extremum, and
`np.diff(pts, axis=1)` computes y − x for each point. -/

/-- A 2-D contour point. -/
structure Pt where
  x : Int
  y : Int
deriving DecidableEq

def min4 (a b c d : Int) : Int := min a (min b (min c d))

def max4 (a b c d : Int) : Int := max a (max b (max c d))

/-- `np.argmin` over four values: first index achieving the minimum. -/
def firstMinIdx (a b c d : Int) : Fin 4 :=
  if a = min4 a b c d then 0 else if b = min4 a b c d then 1
  else if c = min4 a b c d then 2 else 3

/-- `np.argmax` over four values: first index achieving the maximum. -/
def firstMaxIdx (a b c d : Int) : Fin 4 :=
  if a = max4 a b c d then 0 else if b = max4 a b c d then 1
  else if c = max4 a b c d then 2 else 3

def pick4 (p0 p1 p2 p3 : Pt) : Fin 4 → Pt
  | 0 => p0
  | 1 => p1
  | 2 => p2
  | 3 => p3

/-- `_order_points`: returns (top-left, top-right, bottom-right,
bottom-left) = (pts[argmin(x+y)], pts[argmin(y−x)], pts[argmax(x+y)],
pts[argmax(y−x)]), matching `rect[0], rect[1], rect[2], rect[3]` of the
source. -/
def orderPoints (p0 p1 p2 p3 : Pt) : Pt × Pt × Pt × Pt :=
  (pick4 p0 p1 p2 p3 (firstMinIdx (p0.x + p0.y) (p1.x + p1.y) (p2.x + p2.y) (p3.x + p3.y)),
   pick4 p0 p1 p2 p3 (firstMinIdx (p0.y - p0.x) (p1.y - p1.x) (p2.y - p2.x) (p3.y - p3.x)),
   pick4 p0 p1 p2 p3 (firstMaxIdx (p0.x + p0.y) (p1.x + p1.y) (p2.x + p2.y) (p3.x + p3.y)),
   pick4 p0 p1 p2 p3 (firstMaxIdx (p0.y - p0.x) (p1.y - p1.x) (p2.y - p2.x) (p3.y - p3.x)))

lemma min4_le_left (a b c d : Int) : min4 a b c d ≤ a := min_le_left _ _

lemma min4_le_b (a b c d : Int) : min4 a b c d ≤ b :=
  le_trans (min_le_right a _) (min_le_left _ _)

lemma min4_le_c (a b c d : Int) : min4 a b c d ≤ c :=
  le_trans (min_le_right a _) (le_trans (min_le_right b _) (min_le_left _ _))

lemma min4_le_d (a b c d : Int) : min4 a b c d ≤ d :=
  le_trans (min_le_right a _) (le_trans (min_le_right b _) (min_le_right _ _))

lemma le_max4_a (a b c d : Int) : a ≤ max4 a b c d := le_max_left _ _

lemma le_max4_b (a b c d : Int) : b ≤ max4 a b c d :=
  le_trans (le_max_left _ _) (le_max_right a _)

lemma le_max4_c (a b c d : Int) : c ≤ max4 a b c d :=
  le_trans (le_trans (le_max_left _ _) (le_max_right b _)) (le_max_right a _)

lemma le_max4_d (a b c d : Int) : d ≤ max4 a b c d :=
  le_trans (le_trans (le_max_right _ _) (le_max_right b _)) (le_max_right a _)

lemma min4_eq_or (a b c d : Int) :
    min4 a b c d = a ∨ min4 a b c d = b ∨ min4 a b c d = c ∨ min4 a b c d = d := by
  unfold min4
  rcases min_choice a (min b (min c d)) with h | h
  · exact Or.inl h
  · rw [h]
    rcases min_choice b (min c d) with h2 | h2
    · exact Or.inr (Or.inl h2)
    · rw [h2]
      rcases min_choice c d with h3 | h3
      · exact Or.inr (Or.inr (Or.inl h3))
      · exact Or.inr (Or.inr (Or.inr h3))

lemma max4_eq_or (a b c d : Int) :
    max4 a b c d = a ∨ max4 a b c d = b ∨ max4 a b c d = c ∨ max4 a b c d = d := by
  unfold max4
  rcases max_choice a (max b (max c d)) with h | h
  · exact Or.inl h
  · rw [h]
    rcases max_choice b (max c d) with h2 | h2
    · exact Or.inr (Or.inl h2)
    · rw [h2]
      rcases max_choice c d with h3 | h3
      · exact Or.inr (Or.inr (Or.inl h3))
      · exact Or.inr (Or.inr (Or.inr h3))

lemma pick4_firstMinIdx_mem (p0 p1 p2 p3 : Pt) (a b c d : Int) :
    pick4 p0 p1 p2 p3 (firstMinIdx a b c d) ∈ [p0, p1, p2, p3] := by
  unfold firstMinIdx
  split_ifs <;> simp [pick4]

lemma pick4_firstMaxIdx_mem (p0 p1 p2 p3 : Pt) (a b c d : Int) :
    pick4 p0 p1 p2 p3 (firstMaxIdx a b c d) ∈ [p0, p1, p2, p3] := by
  unfold firstMaxIdx
  split_ifs <;> simp [pick4]

lemma apply_pick4_firstMinIdx (f : Pt → Int) (p0 p1 p2 p3 : Pt) :
    f (pick4 p0 p1 p2 p3 (firstMinIdx (f p0) (f p1) (f p2) (f p3))) =
      min4 (f p0) (f p1) (f p2) (f p3) := by
  unfold firstMinIdx
  split_ifs with h1 h2 h3
  · simpa [pick4] using h1
  · simpa [pick4] using h2
  · simpa [pick4] using h3
  · rcases min4_eq_or (f p0) (f p1) (f p2) (f p3) with h | h | h | h
    · exact absurd h.symm h1
    · exact absurd h.symm h2
    · exact absurd h.symm h3
    · simpa [pick4] using h.symm

lemma apply_pick4_firstMaxIdx (f : Pt → Int) (p0 p1 p2 p3 : Pt) :
    f (pick4 p0 p1 p2 p3 (firstMaxIdx (f p0) (f p1) (f p2) (f p3))) =
      max4 (f p0) (f p1) (f p2) (f p3) := by
  unfold firstMaxIdx
  split_ifs with h1 h2 h3
  · simpa [pick4] using h1
  · simpa [pick4] using h2
  · simpa [pick4] using h3
  · rcases max4_eq_or (f p0) (f p1) (f p2) (f p3) with h | h | h | h
    · exact absurd h.symm h1
    · exact absurd h.symm h2
    · exact absurd h.symm h3
    · simpa [pick4] using h.symm

/-- Claim C5 counterexample: on the axis-aligned rectangle
(0,0), (10,0), (10,5), (0,5) the code returns top-right = (10,0), yet
the input point (0,5) has a strictly smaller x−y value (−5 < 10), so
the returned top-right is not "the point with minimum x−y" as the
claim states (the code minimizes y−x, i.e. maximizes x−y). -/
theorem C5_counterexample_topright_is_not_min_x_sub_y :
    orderPoints ⟨0, 0⟩ ⟨10, 0⟩ ⟨10, 5⟩ ⟨0, 5⟩ =
      (⟨0, 0⟩, ⟨10, 0⟩, ⟨10, 5⟩, ⟨0, 5⟩) ∧
    (Pt.mk 0 5).x - (Pt.mk 0 5).y <
      (orderPoints ⟨0, 0⟩ ⟨10, 0⟩ ⟨10, 5⟩ ⟨0, 5⟩).2.1.x -
      (orderPoints ⟨0, 0⟩ ⟨10, 0⟩ ⟨10, 5⟩ ⟨0, 5⟩).2.1.y := by
  constructor
  · decide
  · decide

/-- Claim C5 (amended): `_order_points` orders the four points by the
sum/difference heuristic with top-left = first minimum of x+y,
bottom-right = first maximum of x+y, top-right = first MAXIMUM of x−y
(the code takes argmin of `np.diff` = y−x), and bottom-left = first
MINIMUM of x−y (argmax of y−x); the claim had the top-right/bottom-left
extrema swapped. -/
theorem C5_order_points_extrema (p0 p1 p2 p3 : Pt) :
    ((orderPoints p0 p1 p2 p3).1 ∈ [p0, p1, p2, p3] ∧
      ∀ q ∈ [p0, p1, p2, p3],
        (orderPoints p0 p1 p2 p3).1.x + (orderPoints p0 p1 p2 p3).1.y ≤ q.x + q.y) ∧
    ((orderPoints p0 p1 p2 p3).2.1 ∈ [p0, p1, p2, p3] ∧
      ∀ q ∈ [p0, p1, p2, p3],
        q.x - q.y ≤ (orderPoints p0 p1 p2 p3).2.1.x - (orderPoints p0 p1 p2 p3).2.1.y) ∧
    ((orderPoints p0 p1 p2 p3).2.2.1 ∈ [p0, p1, p2, p3] ∧
      ∀ q ∈ [p0, p1, p2, p3],
        q.x + q.y ≤ (orderPoints p0 p1 p2 p3).2.2.1.x + (orderPoints p0 p1 p2 p3).2.2.1.y) ∧
    ((orderPoints p0 p1 p2 p3).2.2.2 ∈ [p0, p1, p2, p3] ∧
      ∀ q ∈ [p0, p1, p2, p3],
        (orderPoints p0 p1 p2 p3).2.2.2.x - (orderPoints p0 p1 p2 p3).2.2.2.y ≤ q.x - q.y) := by
  refine ⟨⟨pick4_firstMinIdx_mem _ _ _ _ _ _ _ _, ?_⟩,
          ⟨pick4_firstMinIdx_mem _ _ _ _ _ _ _ _, ?_⟩,
          ⟨pick4_firstMaxIdx_mem _ _ _ _ _ _ _ _, ?_⟩,
          ⟨pick4_firstMaxIdx_mem _ _ _ _ _ _ _ _, ?_⟩⟩
  · have hv := apply_pick4_firstMinIdx (fun p => p.x + p.y) p0 p1 p2 p3
    intro q hq
    simp only [List.mem_cons, List.not_mem_nil, or_false] at hq
    rw [show (orderPoints p0 p1 p2 p3).1 =
      pick4 p0 p1 p2 p3 (firstMinIdx (p0.x + p0.y) (p1.x + p1.y) (p2.x + p2.y) (p3.x + p3.y)) from rfl]
    rw [hv]
    rcases hq with rfl | rfl | rfl | rfl
    · exact min4_le_left _ _ _ _
    · exact min4_le_b _ _ _ _
    · exact min4_le_c _ _ _ _
    · exact min4_le_d _ _ _ _
  · have hv := apply_pick4_firstMinIdx (fun p => p.y - p.x) p0 p1 p2 p3
    intro q hq
    simp only [List.mem_cons, List.not_mem_nil, or_false] at hq
    have hr : (orderPoints p0 p1 p2 p3).2.1 =
      pick4 p0 p1 p2 p3 (firstMinIdx (p0.y - p0.x) (p1.y - p1.x) (p2.y - p2.x) (p3.y - p3.x)) := rfl
    rw [hr]
    rcases hq with rfl | rfl | rfl | rfl
    · have h := min4_le_left (q.y - q.x) (p1.y - p1.x) (p2.y - p2.x) (p3.y - p3.x)
      linarith [hv, h]
    · have h := min4_le_b (p0.y - p0.x) (q.y - q.x) (p2.y - p2.x) (p3.y - p3.x)
      linarith [hv, h]
    · have h := min4_le_c (p0.y - p0.x) (p1.y - p1.x) (q.y - q.x) (p3.y - p3.x)
      linarith [hv, h]
    · have h := min4_le_d (p0.y - p0.x) (p1.y - p1.x) (p2.y - p2.x) (q.y - q.x)
      linarith [hv, h]
  · have hv := apply_pick4_firstMaxIdx (fun p => p.x + p.y) p0 p1 p2 p3
    intro q hq
    simp only [List.mem_cons, List.not_mem_nil, or_false] at hq
    have hr : (orderPoints p0 p1 p2 p3).2.2.1 =
      pick4 p0 p1 p2 p3 (firstMaxIdx (p0.x + p0.y) (p1.x + p1.y) (p2.x + p2.y) (p3.x + p3.y)) := rfl
    rw [hr, hv]
    rcases hq with rfl | rfl | rfl | rfl
    · exact le_max4_a _ _ _ _
    · exact le_max4_b _ _ _ _
    · exact le_max4_c _ _ _ _
    · exact le_max4_d _ _ _ _
  · have hv := apply_pick4_firstMaxIdx (fun p => p.y - p.x) p0 p1 p2 p3
    intro q hq
    simp only [List.mem_cons, List.not_mem_nil, or_false] at hq
    have hr : (orderPoints p0 p1 p2 p3).2.2.2 =
      pick4 p0 p1 p2 p3 (firstMaxIdx (p0.y - p0.x) (p1.y - p1.x) (p2.y - p2.x) (p3.y - p3.x)) := rfl
    rw [hr]
    rcases hq with rfl | rfl | rfl | rfl
    · have h := le_max4_a (q.y - q.x) (p1.y - p1.x) (p2.y - p2.x) (p3.y - p3.x)
      linarith [hv, h]
    · have h := le_max4_b (p0.y - p0.x) (q.y - q.x) (p2.y - p2.x) (p3.y - p3.x)
      linarith [hv, h]
    · have h := le_max4_c (p0.y - p0.x) (p1.y - p1.x) (q.y - q.x) (p3.y - p3.x)
      linarith [hv, h]
    · have h := le_max4_d (p0.y - p0.x) (p1.y - p1.x) (p2.y - p2.x) (q.y - q.x)
      linarith [hv, h]

/-! ## Perspective correction (`SimpleOCRWorker._correct_plate_perspective`).
The OpenCV stages whose outputs only feed the control flow are
parameters of the embedding: `cands` is the list of candidate contours
the loop examines (the ten largest, sorted by area, each with the point
count of its polygonal approximation, that approximation's area, and
its four points when the count is 4), and `warpPx` gives the pixel
content produced by `cv2.warpPerspective` for a given destination size
(which is exactly `maxWidth × maxHeight`).  `cv2.contourArea` of an
integer polygon is an exact half-integer, so areas are carried doubled
as integers: the source test `area > rows * cols * 0.1` is the exact
comparison `5 * (2 * area) > rows * cols`.  The embedded function is
total: it never raises. -/

/-- An image: row and column counts plus flattened pixel data.  The
NumPy `size` attribute is zero exactly when `rows * cols = 0`. -/
structure Img where
  rows : Nat
  cols : Nat
  px : List Int
deriving DecidableEq

/-- A candidate contour as seen by the selection loop: `len(approx)`,
twice `cv2.contourArea(approx)`, and the four approximation points. -/
structure Contour where
  approxLen : Nat
  approxArea2 : Int
  p0 : Pt
  p1 : Pt
  p2 : Pt
  p3 : Pt
deriving DecidableEq

/-- The `screen_cnt` selection loop: first contour whose approximation
has exactly 4 points and area above 10% of the crop area
(`5 * approxArea2 > cropArea` is `area > cropArea * 0.1` exactly). -/
def findScreenCnt (cropArea : Int) : List Contour → Option Contour
  | [] => none
  | c :: rest =>
    if c.approxLen = 4 ∧ 5 * c.approxArea2 > cropArea then some c
    else findScreenCnt cropArea rest

/-- Squared euclidean distance between two integer points. -/
def sqDist (a b : Pt) : Nat := ((a.x - b.x) ^ 2 + (a.y - b.y) ^ 2).toNat

/-- `max(int(width_a), int(width_b))` and the height analogue:
`int(np.sqrt(n))` on an exact integer square sum is `Nat.sqrt n`. -/
def destDims (c : Contour) : Nat × Nat :=
  let r := orderPoints c.p0 c.p1 c.p2 c.p3
  let tl := r.1
  let tr := r.2.1
  let br := r.2.2.1
  let bl := r.2.2.2
  (max (Nat.sqrt (sqDist br bl)) (Nat.sqrt (sqDist tr tl)),
   max (Nat.sqrt (sqDist tr br)) (Nat.sqrt (sqDist tl bl)))

/-- `SimpleOCRWorker._correct_plate_perspective`: returns the input
unchanged for a `None`/empty crop, when no qualifying quadrilateral is
found, when a destination dimension is zero, or when the warped result
is smaller than 50×20; otherwise returns the warped image of shape
`maxHeight × maxWidth`. -/
def correctPlatePerspective (cands : List Contour)
    (warpPx : Nat → Nat → List Int) (crop : Option Img) : Option Img :=
  match crop with
  | none => none
  | some img =>
    if img.rows * img.cols = 0 then some img
    else
      match findScreenCnt ((img.rows * img.cols : ℕ) : ℤ) cands with
      | none => some img
      | some c =>
        let dims := destDims c
        if dims.1 = 0 then some img
        else if dims.2 = 0 then some img
        else
          let warped : Img := ⟨dims.2, dims.1, warpPx dims.1 dims.2⟩
          if warped.rows < 20 ∨ warped.cols < 50 then some img
          else some warped

/-- `Nat.sqrt` at an exactly bracketed argument. -/
lemma sqrt_eq_exact (a n : ℕ) (h1 : n * n ≤ a) (h2 : a < (n + 1) * (n + 1)) :
    Nat.sqrt a = n :=
  Nat.le_antisymm (Nat.lt_succ_iff.mp (Nat.sqrt_lt.mpr h2)) (Nat.le_sqrt.mpr h1)

/-- Claim C6: `_correct_plate_perspective` never raises (the embedding
is total) and returns the input crop bit-identically in every fallback
case: `None` input, zero-area crop, no qualifying 4-point contour with
area above 10% of the crop, and qualifying candidate whose destination
width is below 50 or destination height is below 20 (which subsumes the
zero-dimension early exits). -/
theorem C6_perspective_fallbacks (cands : List Contour)
    (warpPx : Nat → Nat → List Int) :
    (correctPlatePerspective cands warpPx none = none) ∧
    (∀ img : Img, img.rows * img.cols = 0 →
      correctPlatePerspective cands warpPx (some img) = some img) ∧
    (∀ img : Img, findScreenCnt ((img.rows * img.cols : ℕ) : ℤ) cands = none →
      correctPlatePerspective cands warpPx (some img) = some img) ∧
    (∀ img : Img, ∀ c : Contour,
      findScreenCnt ((img.rows * img.cols : ℕ) : ℤ) cands = some c →
      ((destDims c).1 < 50 ∨ (destDims c).2 < 20) →
      correctPlatePerspective cands warpPx (some img) = some img) := by
  refine ⟨rfl, ?_, ?_, ?_⟩
  · intro img h
    simp only [correctPlatePerspective]
    rw [if_pos h]
  · intro img h
    simp only [correctPlatePerspective]
    rw [h]
    split
    · rfl
    · rfl
  · intro img c hc hdims
    simp only [correctPlatePerspective]
    rw [hc]
    dsimp only
    split
    · rfl
    · split
      · rfl
      · split
        · rfl
        · split
          · rfl
          · rename_i hz1 hz2 hlt
            exfalso
            exact hlt (by omega)

/-- Witness for C6: a 100×100 crop whose only qualifying contour (a
10×5 rectangle of doubled area 4000, i.e. area 2000 > 1000 = 10% of the
crop) rectifies to a 10×5 destination, below the 50×20 minimum, so the
crop comes back unchanged. -/
theorem C6_perspective_fallbacks_witness :
    correctPlatePerspective
      [⟨4, 4000, ⟨0, 0⟩, ⟨10, 0⟩, ⟨10, 5⟩, ⟨0, 5⟩⟩]
      (fun _ _ => []) (some ⟨100, 100, [7]⟩) = some ⟨100, 100, [7]⟩ := by
  have h100 : Nat.sqrt 100 = 10 := sqrt_eq_exact 100 10 (by decide) (by decide)
  have h25 : Nat.sqrt 25 = 5 := sqrt_eq_exact 25 5 (by decide) (by decide)
  have hdd : destDims ⟨4, 4000, ⟨0, 0⟩, ⟨10, 0⟩, ⟨10, 5⟩, ⟨0, 5⟩⟩ =
      (max (Nat.sqrt 100) (Nat.sqrt 100), max (Nat.sqrt 25) (Nat.sqrt 25)) := rfl
  rw [h100, h25] at hdd
  exact (C6_perspective_fallbacks
      [⟨4, 4000, ⟨0, 0⟩, ⟨10, 0⟩, ⟨10, 5⟩, ⟨0, 5⟩⟩]
      (fun _ _ => [])).2.2.2 ⟨100, 100, [7]⟩
    ⟨4, 4000, ⟨0, 0⟩, ⟨10, 0⟩, ⟨10, 5⟩, ⟨0, 5⟩⟩
    (by decide) (by rw [hdd]; exact Or.inl (by decide))

/-! ## The TrOCR/EasyOCR background worker result slot
(`SimpleOCRWorker._process_ocr` / `get_latest_result`).  Each completed
background OCR pass either raises (leaving `latest_result` untouched)
or produces a raw text whose validated formatting, when present and
non-empty, overwrites `latest_result`; a `None`/empty outcome leaves
the slot alone.  The source's except-block (whose `print` line is
mis-indented, a syntax slip) never writes `latest_result` either way. -/

/-- Outcome of one background OCR pass: an exception inside the OCR
engine, or a raw decoded text handed to the validation pipeline. -/
inductive OcrEvent where
  | exc : OcrEvent
  | read : String → OcrEvent
deriving DecidableEq

/-- One `_process_ocr` pass acting on `latest_result`: a validated,
non-empty (`if license_plate_text:`) formatted plate overwrites the
slot; everything else leaves it unchanged. -/
def pyWorkerStep (st : String) (e : OcrEvent) : String :=
  match e with
  | .exc => st
  | .read raw =>
    match readPipeline raw with
    | none => st
    | some t => if t = "" then st else t

/-- `latest_result` after a sequence of background passes, starting
from the `__init__` sentinel. -/
def pyWorkerRun (es : List OcrEvent) : String :=
  es.foldl pyWorkerStep "No plate detected"

/-- The successfully validated outputs among a sequence of passes. -/
def pySuccesses (es : List OcrEvent) : List String :=
  es.filterMap (fun e =>
    match e with
    | .exc => none
    | .read raw => readPipeline raw)

lemma pyWorkerRun_from (es : List OcrEvent) :
    ∀ st : String, es.foldl pyWorkerStep st = (pySuccesses es).getLastD st := by
  induction es with
  | nil => intro st; rfl
  | cons e rest ih =>
    intro st
    cases e with
    | exc =>
      show rest.foldl pyWorkerStep st = _
      rw [ih st]
      rfl
    | read raw =>
      cases hp : readPipeline raw with
      | none =>
        show List.foldl pyWorkerStep (pyWorkerStep st (.read raw)) rest = _
        have hstep : pyWorkerStep st (.read raw) = st := by
          unfold pyWorkerStep
          dsimp only
          rw [hp]
        rw [hstep, ih st]
        show _ = (List.filterMap _ (OcrEvent.read raw :: rest)).getLastD st
        rw [List.filterMap_cons]
        dsimp only
        rw [hp]
        rfl
      | some t =>
        have hne : t ≠ "" := by
          intro h0
          have hd := pyValidateFormat_dash hp
          rw [h0] at hd
          simp at hd
        have hstep : pyWorkerStep st (.read raw) = t := by
          unfold pyWorkerStep
          dsimp only
          rw [hp]
          dsimp only
          rw [if_neg hne]
        show List.foldl pyWorkerStep (pyWorkerStep st (.read raw)) rest = _
        rw [hstep, ih t]
        show _ = (List.filterMap _ (OcrEvent.read raw :: rest)).getLastD st
        rw [List.filterMap_cons]
        dsimp only
        rw [hp]
        dsimp only
        exact (List.getLastD_cons st t _).symm

/-- Claim C9: `latest_result` starts at the sentinel "No plate
detected" and after any sequence of background passes equals the last
successfully validated formatted plate (or the sentinel when none
succeeded); exceptions, empty reads and validation rejections leave the
previous value in place, and no validated output ever equals the
sentinel, so after the first success the sentinel never returns and an
arbitrarily stale plate can be served indefinitely. -/
theorem C9_latest_result_only_validated (es : List OcrEvent) :
    pyWorkerRun es = (pySuccesses es).getLastD "No plate detected" ∧
    (∀ t ∈ pySuccesses es, t ≠ "No plate detected") := by
  constructor
  · exact pyWorkerRun_from es "No plate detected"
  · intro t ht
    rcases List.mem_filterMap.mp ht with ⟨e, _, he⟩
    cases e with
    | exc => cases he
    | read raw =>
      intro hcontra
      have hd := pyValidateFormat_dash he
      rw [hcontra] at hd
      revert hd
      decide

/-! ## The fast-plate background worker result publication
(`FastPlateOCRWorker._process_ocr`).  `result` is the list of strings
returned by the OCR engine. -/

/-- The value `_process_ocr` stores into `latest_result` for a given
engine result list: a validated formatted plate; else, for a non-empty
raw read failing validation, the debug string
`Raw: <digits> (len:<n>)`; else the sentinel. -/
def fpProcessResult (result : List String) : String :=
  if result.length > 0 then
    let raw_text := result.headD ""
    if raw_text = "" then "No plate detected"
    else
      match fpValidate raw_text with
      | some f => f
      | none =>
        let numeric_only := onlyDigits (pyStrip (stripUnderscores raw_text))
        "Raw: " ++ numeric_only ++ " (len:" ++ toString numeric_only.length ++ ")"
  else "No plate detected"

/-- Claim C10: when the fast-plate OCR read returns a non-empty text
that fails validation, the worker publishes the debug string
`Raw: <digits> (len:<n>)` into `latest_result`; when the read returns
an empty or missing result it resets `latest_result` to the sentinel
"No plate detected" — so `get_latest_result` can serve a non-canonical
unvalidated string. -/
theorem C10_fp_publishes_debug_string :
    (∀ raw : String, ∀ rest : List String, raw ≠ "" →
      fpValidate raw = none →
      fpProcessResult (raw :: rest) =
        "Raw: " ++ onlyDigits (pyStrip (stripUnderscores raw)) ++ " (len:" ++
          toString (onlyDigits (pyStrip (stripUnderscores raw))).length ++ ")") ∧
    (fpProcessResult [] = "No plate detected") ∧
    (∀ rest : List String, fpProcessResult ("" :: rest) = "No plate detected") := by
  refine ⟨?_, rfl, ?_⟩
  · intro raw rest hne hval
    unfold fpProcessResult
    rw [if_pos (by simp)]
    dsimp only [List.headD_cons]
    rw [if_neg hne, hval]
  · intro rest
    unfold fpProcessResult
    rw [if_pos (by simp)]
    dsimp only [List.headD_cons]
    rw [if_pos rfl]

/-- Witness for C10: a six-digit read fails validation and the debug
string "Raw: 123456 (len:6)" is published. -/
theorem C10_fp_publishes_debug_string_witness :
    fpProcessResult ["123456"] =
      "Raw: " ++ onlyDigits (pyStrip (stripUnderscores "123456")) ++ " (len:" ++
        toString (onlyDigits (pyStrip (stripUnderscores "123456"))).length ++ ")" :=
  C10_fp_publishes_debug_string.1 "123456" [] (by decide) (by decide)

/-! ## The background OCR scheduler (`SimpleOCRWorker.process_latest` /
`_process_ocr`).  `process_latest` checks `self.processing` and
`self.stop_event`, stores the crop and starts a daemon thread; the
`processing` flag is only set to `True` later, by the spawned thread
itself at the top of `_process_ocr`.  The interleaving semantics is a
step machine: `request` is the flag check plus thread start,
`enterTask` is a spawned thread reaching `self.processing = True`
(or exiting early), `finishTask` is a task's `finally` clause,
`setStop` sets the stop event. -/

/-- Scheduler state: the `processing` and stop flags, whether
`current_task` holds a crop, threads started but not yet past the
entry of `_process_ocr`, tasks past the entry and still running, and
the total count of started tasks. -/
structure SchedState where
  processing : Bool
  stopped : Bool
  hasTask : Bool
  spawned : Nat
  running : Nat
  started : Nat
deriving DecidableEq

inductive SchedEvent where
  | request : SchedEvent
  | enterTask : SchedEvent
  | finishTask : SchedEvent
  | setStop : SchedEvent
deriving DecidableEq

/-- One interleaving step of the scheduler. -/
def schedStep (s : SchedState) (e : SchedEvent) : SchedState :=
  match e with
  | .request =>
    if !s.processing && !s.stopped then
      { s with hasTask := true, spawned := s.spawned + 1, started := s.started + 1 }
    else s
  | .enterTask =>
    if s.spawned > 0 then
      if !s.hasTask || s.stopped then
        { s with spawned := s.spawned - 1, processing := false }
      else
        { s with spawned := s.spawned - 1, running := s.running + 1, processing := true }
    else s
  | .finishTask =>
    if s.running > 0 then
      { s with running := s.running - 1, processing := false }
    else s
  | .setStop => { s with stopped := true }

/-- The `__init__` state of `SimpleOCRWorker`. -/
def schedInit : SchedState :=
  { processing := false, stopped := false, hasTask := false,
    spawned := 0, running := 0, started := 0 }

/-- Run the scheduler over an interleaving of events. -/
def schedRun (es : List SchedEvent) : SchedState :=
  es.foldl schedStep schedInit

/-- Claim C8: the code does NOT guarantee at most one background OCR
task: the `processing` flag is set inside the spawned thread, so in the
interleaving where two `process_latest` calls both run their guard
before either spawned thread reaches `self.processing = True`, both
requests start a task and both tasks then run simultaneously — the
claim's "two requests in rapid succession start exactly one task"
fails.  A request after the stop flag is set does start no task. -/
theorem C8_rapid_requests_start_two_tasks :
    (schedRun [.request, .request]).started = 2 ∧
    (schedRun [.request, .request, .enterTask, .enterTask]).running = 2 ∧
    (schedRun [.setStop, .request]).started = 0 := by
  refine ⟨rfl, rfl, rfl⟩

/-! ## Per-frame plate association and best-plate selection
(`DetectionWorker.run`, identical in `python_yolo.py` and
`python_yolo_fast_plate.py`).  Detector boxes and confidences are
rationals (the source comparisons are exact at the modelled inputs);
`class_id` is carried already truncated by `int(...)`. -/

/-- A raw vehicle detection `[x1, y1, x2, y2, score, class_id]`. -/
structure VDet where
  x1 : ℚ
  y1 : ℚ
  x2 : ℚ
  y2 : ℚ
  score : ℚ
  cls : Int
deriving DecidableEq

/-- A license-plate detection `[x1_lp, y1_lp, x2_lp, y2_lp, score_lp]`. -/
structure PDet where
  x1 : ℚ
  y1 : ℚ
  x2 : ℚ
  y2 : ℚ
  score : ℚ
deriving DecidableEq

/-- `self.vehicle_classes = [2, 3, 5, 7]`. -/
def vehicleClasses : List Int := [2, 3, 5, 7]

/-- The vehicle filter `int(class_id) in self.vehicle_classes and
score > 0.5`. -/
def keepVehicle (v : VDet) : Bool :=
  vehicleClasses.contains v.cls && decide ((1 : ℚ) / 2 < v.score)

/-- `detected_vehicles` for one frame. -/
def filterVehicles (vs : List VDet) : List VDet := vs.filter keepVehicle

/-- The margin-containment test: the plate box lies within the vehicle
box expanded by 20 pixels on every side. -/
def plateInExpanded (v : VDet) (p : PDet) : Bool :=
  decide (v.x1 - 20 ≤ p.x1) && decide (v.y1 - 20 ≤ p.y1) &&
  decide (p.x2 ≤ v.x2 + 20) && decide (p.y2 ≤ v.y2 + 20)

/-- The inner `for vehicle in detected_vehicles ... break` loop:
`associated_vehicle is not None` iff some filtered vehicle's expanded
box contains the plate. -/
def isAssoc (vs : List VDet) (p : PDet) : Bool :=
  (filterVehicles vs).any (fun v => plateInExpanded v p)

/-- One iteration of the plate loop acting on the state
`(detected_license_plates, (best_license_plate_coords, best_score))`. -/
def detStep (vs : List VDet)
    (st : List PDet × (Option (ℚ × ℚ × ℚ × ℚ) × ℚ)) (p : PDet) :
    List PDet × (Option (ℚ × ℚ × ℚ × ℚ) × ℚ) :=
  if isAssoc vs p then
    (st.1 ++ [p],
     if p.score > st.2.2 then (some (p.x1, p.y1, p.x2, p.y2), p.score) else st.2)
  else st

/-- The whole plate loop: starts from the empty list, `None` coords and
`best_score = 0`. -/
def detFold (vs : List VDet) (ps : List PDet) :
    List PDet × (Option (ℚ × ℚ × ℚ × ℚ) × ℚ) :=
  ps.foldl (detStep vs) ([], (none, 0))

/-- `detected_license_plates` after the loop. -/
def detectedLicensePlates (vs : List VDet) (ps : List PDet) : List PDet :=
  (detFold vs ps).1

/-- `best_license_plate_coords` after the loop. -/
def bestLicensePlateCoords (vs : List VDet) (ps : List PDet) :
    Option (ℚ × ℚ × ℚ × ℚ) :=
  (detFold vs ps).2.1

/-- The best-score tracking of the loop, restricted to the associated
plates it actually considers. -/
def pickBestAux (acc : Option (ℚ × ℚ × ℚ × ℚ) × ℚ) :
    List PDet → Option (ℚ × ℚ × ℚ × ℚ) × ℚ
  | [] => acc
  | p :: rest =>
    if p.score > acc.2 then
      pickBestAux (some (p.x1, p.y1, p.x2, p.y2), p.score) rest
    else pickBestAux acc rest

/-- The claim's best plate, stated the way the spec reads: the first
plate in the list whose confidence is maximal. -/
def firstMaxPlate (l : List PDet) : Option PDet :=
  l.find? (fun p => l.all (fun q => decide (q.score ≤ p.score)))

lemma detFold_split (vs : List VDet) :
    ∀ (ps : List PDet) (accL : List PDet) (acc : Option (ℚ × ℚ × ℚ × ℚ) × ℚ),
      ps.foldl (detStep vs) (accL, acc) =
        (accL ++ ps.filter (isAssoc vs),
         pickBestAux acc (ps.filter (isAssoc vs))) := by
  intro ps
  induction ps with
  | nil => intro accL acc; simp [pickBestAux]
  | cons p rest ih =>
    intro accL acc
    by_cases ha : isAssoc vs p = true
    · have hstep : detStep vs (accL, acc) p =
          (accL ++ [p],
           if p.score > acc.2 then (some (p.x1, p.y1, p.x2, p.y2), p.score) else acc) := by
        unfold detStep
        rw [if_pos ha]
      rw [List.foldl_cons, hstep, ih, List.filter_cons_of_pos ha]
      by_cases hs : p.score > acc.2
      · rw [if_pos hs]
        show _ = (accL ++ p :: List.filter _ rest, pickBestAux acc (p :: List.filter _ rest))
        have hpb : pickBestAux acc (p :: List.filter (isAssoc vs) rest) =
            pickBestAux (some (p.x1, p.y1, p.x2, p.y2), p.score)
              (List.filter (isAssoc vs) rest) := by
          show (if p.score > acc.2 then _ else _) = _
          rw [if_pos hs]
        rw [hpb]
        simp
      · rw [if_neg hs]
        have hpb : pickBestAux acc (p :: List.filter (isAssoc vs) rest) =
            pickBestAux acc (List.filter (isAssoc vs) rest) := by
          show (if p.score > acc.2 then _ else _) = _
          rw [if_neg hs]
        rw [hpb]
        simp
    · have hstep : detStep vs (accL, acc) p = (accL, acc) := by
        unfold detStep
        rw [if_neg ha]
      rw [List.foldl_cons, hstep, ih,
        List.filter_cons_of_neg (by simpa using ha)]

/-- The running-best predicate: a plate beating the threshold `b` and
at least as confident as every plate of `l`. -/
def bestPred (b : ℚ) (l : List PDet) (p : PDet) : Bool :=
  decide (b < p.score) && l.all (fun q => decide (q.score ≤ p.score))

lemma find?_congr {α : Type _} (f g : α → Bool) :
    ∀ l : List α, (∀ x ∈ l, f x = g x) → l.find? f = l.find? g := by
  intro l
  induction l with
  | nil => intro _; rfl
  | cons a t ih =>
    intro h
    simp only [List.find?]
    rw [← h a (List.mem_cons_self a t)]
    cases hfa : f a
    · exact ih (fun x hx => h x (List.mem_cons_of_mem a hx))
    · rfl

lemma exists_max_achiever :
    ∀ l : List PDet, l ≠ [] → ∃ p ∈ l, ∀ q ∈ l, q.score ≤ p.score := by
  intro l
  induction l with
  | nil => intro h; exact absurd rfl h
  | cons a t ih =>
    intro _
    cases t with
    | nil =>
      refine ⟨a, List.mem_singleton_self a, ?_⟩
      intro q hq
      rw [List.mem_singleton.mp hq]
    | cons b m =>
      obtain ⟨p, hp, hmax⟩ := ih (by simp)
      by_cases hc : a.score ≤ p.score
      · refine ⟨p, List.mem_cons_of_mem a hp, ?_⟩
        intro q hq
        rcases List.mem_cons.mp hq with rfl | hq2
        · exact hc
        · exact hmax q hq2
      · refine ⟨a, List.mem_cons_self a _, ?_⟩
        intro q hq
        rcases List.mem_cons.mp hq with rfl | hq2
        · exact le_refl _
        · exact le_trans (hmax q hq2) (le_of_not_le hc)

lemma pickBestAux_eq :
    ∀ (l : List PDet) (acc : Option (ℚ × ℚ × ℚ × ℚ) × ℚ),
      pickBestAux acc l =
        match l.find? (bestPred acc.2 l) with
        | some p => (some (p.x1, p.y1, p.x2, p.y2), p.score)
        | none => acc := by
  intro l
  induction l with
  | nil => intro acc; rfl
  | cons p rest ih =>
    intro acc
    by_cases hb : acc.2 < p.score
    · have hL : pickBestAux acc (p :: rest) =
          pickBestAux (some (p.x1, p.y1, p.x2, p.y2), p.score) rest := by
        simp only [pickBestAux]
        rw [if_pos hb]
      rw [hL, ih (some (p.x1, p.y1, p.x2, p.y2), p.score)]
      by_cases hall : rest.all (fun q => decide (q.score ≤ p.score)) = true
      · have hnone : rest.find? (bestPred p.score rest) = none := by
          apply List.find?_eq_none.mpr
          intro q hq
          unfold bestPred
          have hle : q.score ≤ p.score :=
            of_decide_eq_true (List.all_eq_true.mp hall q hq)
          simp only [Bool.and_eq_true, decide_eq_true_eq, not_and]
          intro hlt
          exact absurd hlt (not_lt.mpr hle)
        have hhead : bestPred acc.2 (p :: rest) p = true := by
          unfold bestPred
          simp only [List.all_cons, Bool.and_eq_true, decide_eq_true_eq]
          exact ⟨hb, le_refl _, hall⟩
        have hfind : (p :: rest).find? (bestPred acc.2 (p :: rest)) = some p := by
          simp only [List.find?, hhead]
        rw [hnone, hfind]
      · have hrf : rest.all (fun q => decide (q.score ≤ p.score)) = false := by
          cases hv : rest.all (fun q => decide (q.score ≤ p.score))
          · rfl
          · exact absurd hv hall
        have hex : ∃ r ∈ rest, p.score < r.score := by
          by_contra hno
          push_neg at hno
          exact hall (List.all_eq_true.mpr
            (fun q hq => decide_eq_true (hno q hq)))
        have hheadf : bestPred acc.2 (p :: rest) p = false := by
          unfold bestPred
          simp [List.all_cons, hrf]
        have hfind : (p :: rest).find? (bestPred acc.2 (p :: rest)) =
            rest.find? (bestPred acc.2 (p :: rest)) := by
          simp only [List.find?, hheadf]
        rw [hfind]
        have hcong : rest.find? (bestPred p.score rest) =
            rest.find? (bestPred acc.2 (p :: rest)) := by
          apply find?_congr
          intro q hq
          by_cases hq_all : rest.all (fun r => decide (r.score ≤ q.score)) = true
          · obtain ⟨r, hr, hpr⟩ := hex
            have hrq : r.score ≤ q.score :=
              of_decide_eq_true (List.all_eq_true.mp hq_all r hr)
            have hpq : p.score < q.score := lt_of_lt_of_le hpr hrq
            have hbq : acc.2 < q.score := lt_trans hb hpq
            unfold bestPred
            simp [List.all_cons, hq_all, hpq, hbq, le_of_lt hpq]
          · have hqf : rest.all (fun r => decide (r.score ≤ q.score)) = false := by
              cases hv : rest.all (fun r => decide (r.score ≤ q.score))
              · rfl
              · exact absurd hv hq_all
            unfold bestPred
            simp [List.all_cons, hqf]
        rw [← hcong]
        have hnn : rest.find? (bestPred p.score rest) ≠ none := by
          obtain ⟨r, hr, hpr⟩ := hex
          obtain ⟨pm, hpm, hmax⟩ :=
            exists_max_achiever rest (List.ne_nil_of_mem hr)
          intro hnone
          apply List.find?_eq_none.mp hnone pm hpm
          unfold bestPred
          have hppm : p.score < pm.score := lt_of_lt_of_le hpr (hmax r hr)
          simp only [Bool.and_eq_true, decide_eq_true_eq]
          exact ⟨hppm, List.all_eq_true.mpr
            (fun q hq => decide_eq_true (hmax q hq))⟩
        cases hv : rest.find? (bestPred p.score rest) with
        | none => exact absurd hv hnn
        | some q => rfl
    · have hL : pickBestAux acc (p :: rest) = pickBestAux acc rest := by
        simp only [pickBestAux]
        rw [if_neg hb]
      rw [hL, ih acc]
      have hheadf : bestPred acc.2 (p :: rest) p = false := by
        unfold bestPred
        simp [hb]
      have hfind : (p :: rest).find? (bestPred acc.2 (p :: rest)) =
          rest.find? (bestPred acc.2 (p :: rest)) := by
        simp only [List.find?, hheadf]
      rw [hfind]
      have hcong : rest.find? (bestPred acc.2 rest) =
          rest.find? (bestPred acc.2 (p :: rest)) := by
        apply find?_congr
        intro q hq
        by_cases hbq : acc.2 < q.score
        · by_cases hq_all : rest.all (fun r => decide (r.score ≤ q.score)) = true
          · have hpq : p.score ≤ q.score :=
              le_trans (not_lt.mp hb) (le_of_lt hbq)
            unfold bestPred
            simp [List.all_cons, hq_all, hbq, hpq]
          · have hqf : rest.all (fun r => decide (r.score ≤ q.score)) = false := by
              cases hv : rest.all (fun r => decide (r.score ≤ q.score))
              · rfl
              · exact absurd hv hq_all
            unfold bestPred
            simp [List.all_cons, hqf]
        · unfold bestPred
          have hd : decide (acc.2 < q.score) = false := decide_eq_false hbq
          simp [hd]
      rw [← hcong]

/-- Claim C1: per processed frame, a plate detection is kept in
`detected_license_plates` iff some vehicle detection that passed the
class allow-list {2,3,5,7} and the confidence > 0.5 filter has a box
that, expanded by 20 pixels on every side, contains the plate box;
and `best_license_plate_coords` is the box of the first associated
plate of maximal confidence (first-seen tie-break, deterministic), or
`None` exactly when no plate is associated — stated for frames whose
plate confidences are positive, as detector scores are. -/
theorem C1_plate_association_and_best_selection (vs : List VDet) (ps : List PDet)
    (hpos : ∀ p ∈ ps, 0 < p.score) :
    (∀ p : PDet, p ∈ detectedLicensePlates vs ps ↔
      p ∈ ps ∧ ∃ v ∈ vs, v.cls ∈ vehicleClasses ∧ (1 : ℚ) / 2 < v.score ∧
        plateInExpanded v p = true) ∧
    bestLicensePlateCoords vs ps =
      (firstMaxPlate (detectedLicensePlates vs ps)).map
        (fun p => (p.x1, p.y1, p.x2, p.y2)) ∧
    (bestLicensePlateCoords vs ps = none ↔ detectedLicensePlates vs ps = []) := by
  have hsplit := detFold_split vs ps [] (none, 0)
  have hplates : detectedLicensePlates vs ps = ps.filter (isAssoc vs) := by
    unfold detectedLicensePlates detFold
    rw [hsplit]
    simp
  have hbestc : bestLicensePlateCoords vs ps =
      (pickBestAux (none, 0) (ps.filter (isAssoc vs))).1 := by
    unfold bestLicensePlateCoords detFold
    rw [hsplit]
  set L := ps.filter (isAssoc vs) with hL
  have hLpos : ∀ q ∈ L, 0 < q.score := fun q hq => hpos q (List.mem_filter.mp hq).1
  have hcong : L.find? (bestPred (0 : ℚ) L) =
      L.find? (fun p => L.all (fun q => decide (q.score ≤ p.score))) := by
    apply find?_congr
    intro x hx
    unfold bestPred
    rw [decide_eq_true (hLpos x hx), Bool.true_and]
  have hkey : bestLicensePlateCoords vs ps =
      (firstMaxPlate L).map (fun p => (p.x1, p.y1, p.x2, p.y2)) := by
    rw [hbestc, pickBestAux_eq L (none, 0)]
    have h2 : (((none, 0) : Option (ℚ × ℚ × ℚ × ℚ) × ℚ)).2 = (0 : ℚ) := rfl
    rw [h2, hcong]
    unfold firstMaxPlate
    cases hf : L.find? (fun p => L.all (fun q => decide (q.score ≤ p.score))) with
    | none => rfl
    | some q => rfl
  have hiff : bestLicensePlateCoords vs ps = none ↔ L = [] := by
    rw [hkey]
    constructor
    · intro h
      cases hf : firstMaxPlate L with
      | some q =>
        rw [hf] at h
        simp at h
      | none =>
        by_contra hne
        obtain ⟨pm, hpm, hmax⟩ := exists_max_achiever L hne
        unfold firstMaxPlate at hf
        apply List.find?_eq_none.mp hf pm hpm
        exact List.all_eq_true.mpr (fun q hq => decide_eq_true (hmax q hq))
    · intro h
      rw [h]
      rfl
  refine ⟨?_, ?_, ?_⟩
  · intro p
    rw [hplates, List.mem_filter]
    constructor
    · rintro ⟨hp, hass⟩
      refine ⟨hp, ?_⟩
      unfold isAssoc at hass
      obtain ⟨v, hv, hin⟩ := List.any_eq_true.mp hass
      have hv2 := List.mem_filter.mp hv
      have hk := hv2.2
      unfold keepVehicle at hk
      rw [Bool.and_eq_true] at hk
      refine ⟨v, hv2.1, ?_, of_decide_eq_true hk.2, hin⟩
      simpa using hk.1
    · rintro ⟨hp, v, hv, hcls, hscore, hin⟩
      refine ⟨hp, ?_⟩
      unfold isAssoc
      apply List.any_eq_true.mpr
      refine ⟨v, ?_, hin⟩
      apply List.mem_filter.mpr
      refine ⟨hv, ?_⟩
      unfold keepVehicle
      rw [Bool.and_eq_true]
      exact ⟨by simpa using hcls, decide_eq_true hscore⟩
  · rw [hplates]
    exact hkey
  · rw [hplates]
    exact hiff

/-- Witness for C1: one qualifying vehicle (class 2, confidence 1) and
two plates, the first contained in the expanded vehicle box, the second
far outside it. -/
theorem C1_plate_association_and_best_selection_witness :
    bestLicensePlateCoords [⟨0, 0, 100, 100, 1, 2⟩]
        [⟨10, 10, 50, 30, 1⟩, ⟨200, 200, 220, 210, 2⟩] =
      (firstMaxPlate (detectedLicensePlates [⟨0, 0, 100, 100, 1, 2⟩]
          [⟨10, 10, 50, 30, 1⟩, ⟨200, 200, 220, 210, 2⟩])).map
        (fun p => (p.x1, p.y1, p.x2, p.y2)) :=
  (C1_plate_association_and_best_selection
    [⟨0, 0, 100, 100, 1, 2⟩]
    [⟨10, 10, 50, 30, 1⟩, ⟨200, 200, 220, 210, 2⟩] (by decide)).2.1
